import Mathlib

/-!
Verification of the ETL pipeline of the Urban-Mobility-Explorer repository.

The development shallowly embeds the server-side data-processing code:

* `server/algorithms.ts` — `calculateHaversineDistance` (over ℝ, since it uses
  trigonometric functions) and `calculateSpeed` (over ℚ).
* `server/dataProcessor.ts` — per-row validation (`isValidNYCCoordinate`,
  `isOutlier`, `processRow`) and the two streaming ingestion entry points
  (`processCSVFile`, `processSampleData`), modelled as explicit state passing
  over a list of raw records.

JavaScript built-ins that the pipeline calls (parseInt, parseFloat,
`new Date(...)`, the database insert) are abstracted into a `JSEnv` record of
functions; every pipeline theorem is proved for an arbitrary environment, and
witnesses instantiate a concrete computable environment.  Numbers handled by
the pipeline are modelled as exact rationals, and the haversine distance
feeding `processRow` is the environment's abstract distance function, so the
pipeline results hold for every distance implementation.
-/

namespace UrbanMobility

/-! ## GeoMath: server/algorithms.ts -/

/-- Degrees to radians, the `toRad` helper inside `calculateHaversineDistance`. -/
noncomputable def toRad (deg : ℝ) : ℝ := deg * Real.pi / 180

/-- Model of JavaScript `Math.atan2 y x` on real (non-NaN, non-infinite)
arguments, by the usual sign case analysis; `atan2 0 0 = 0` as in JS. -/
noncomputable def atan2 (y x : ℝ) : ℝ :=
  if 0 < x then Real.arctan (y / x)
  else if x < 0 then
    (if 0 ≤ y then Real.arctan (y / x) + Real.pi else Real.arctan (y / x) - Real.pi)
  else
    (if 0 < y then Real.pi / 2 else if y < 0 then -(Real.pi / 2) else 0)

/-- The intermediate value `a` of the haversine formula in
`calculateHaversineDistance`:
`sin(dLat/2) * sin(dLat/2) + cos(lat1Rad) * cos(lat2Rad) * sin(dLon/2) * sin(dLon/2)`. -/
noncomputable def havA (lat1 lon1 lat2 lon2 : ℝ) : ℝ :=
  Real.sin (toRad (lat2 - lat1) / 2) * Real.sin (toRad (lat2 - lat1) / 2) +
    Real.cos (toRad lat1) * Real.cos (toRad lat2) *
      (Real.sin (toRad (lon2 - lon1) / 2) * Real.sin (toRad (lon2 - lon1) / 2))

/-- `calculateHaversineDistance(lat1, lon1, lat2, lon2)` from
server/algorithms.ts: `c = 2 * atan2(sqrt a, sqrt (1 - a))`, result `R * c`
with `R = 6371` km. -/
noncomputable def calculateHaversineDistance (lat1 lon1 lat2 lon2 : ℝ) : ℝ :=
  let R : ℝ := 6371
  let a := havA lat1 lon1 lat2 lon2
  let c := 2 * atan2 (Real.sqrt a) (Real.sqrt (1 - a))
  R * c

/-- `calculateSpeed(distanceKm, durationSeconds)` from server/algorithms.ts:
`if (durationSeconds === 0) return 0; return distanceKm / (durationSeconds / 3600)`.
Modelled over exact rationals. -/
def calculateSpeed (distanceKm durationSeconds : ℚ) : ℚ :=
  if durationSeconds = 0 then 0
  else distanceKm / (durationSeconds / 3600)

/-! ## Data model: server/dataProcessor.ts -/

/-- The observable part of a JavaScript `Date` that the pipeline uses:
`getTime()` validity is modelled by `Option JSDate`, and `getHours()` /
`getDay()` are the two stored components. -/
structure JSDate where
  hours : Int
  day : Int
deriving DecidableEq, Repr

/-- `RawTripData`: the as-read CSV row, all fields strings. -/
structure RawTripData where
  id : String
  vendor_id : String
  pickup_datetime : String
  dropoff_datetime : String
  passenger_count : String
  pickup_longitude : String
  pickup_latitude : String
  dropoff_longitude : String
  dropoff_latitude : String
  store_and_fwd_flag : String
  trip_duration : String
deriving DecidableEq, Repr

/-- `InsertTrip`: the cleaned, typed, feature-enriched record returned by
`processRow` and handed to the database. -/
structure InsertTrip where
  id : String
  vendorId : Int
  pickupDatetime : JSDate
  dropoffDatetime : JSDate
  passengerCount : Int
  pickupLongitude : ℚ
  pickupLatitude : ℚ
  dropoffLongitude : ℚ
  dropoffLatitude : ℚ
  storeAndFwdFlag : String
  tripDuration : Int
  tripSpeed : ℚ
  tripDistance : ℚ
  hourOfDay : Int
  dayOfWeek : Int
  isWeekend : Int
deriving DecidableEq, Repr

/-- The JavaScript built-ins and external collaborators the pipeline calls,
abstracted as parameters.  `parseIntS s = none` models `isNaN(parseInt(s))`,
likewise `parseFloatS`; `parseDate s = none` models
`isNaN(new Date(s).getTime())`; `haversine` models the floating-point
`calculateHaversineDistance` call inside `processRow`; `dbInsertOk b` models
whether `db.insert(trips).values(b)` succeeds. -/
structure JSEnv where
  parseIntS : String → Option Int
  parseFloatS : String → Option ℚ
  parseDate : String → Option JSDate
  haversine : ℚ → ℚ → ℚ → ℚ → ℚ
  dbInsertOk : List InsertTrip → Bool

/-! ## Per-row validation -/

/-- Drop leading whitespace characters from a character list. -/
def dropWS : List Char → List Char
  | [] => []
  | c :: cs => if c.isWhitespace then dropWS cs else c :: cs

/-- Model of JavaScript `String.prototype.trim()`: remove leading and
trailing whitespace. -/
def jsTrim (s : String) : String :=
  String.mk (dropWS ((dropWS s.data.reverse).reverse))

/-- `isValidNYCCoordinate(lat, lon)`: both coordinates inside the fixed NYC
bounding box (inclusive bounds, as the source uses `>=` and `<=`). -/
def isValidNYCCoordinate (lat lon : ℚ) : Bool :=
  decide ((40.4 : ℚ) ≤ lat) && decide (lat ≤ (41.0 : ℚ)) &&
    decide ((-74.3 : ℚ) ≤ lon) && decide (lon ≤ (-73.7 : ℚ))

/-- `isOutlier(duration, distance, speed)`: true when any derived quantity is
outside its plausible range (strict comparisons, as in the source). -/
def isOutlier (duration distance speed : ℚ) : Bool :=
  if duration < 60 ∨ duration > 3600 * 5 then true
  else if distance < 0.1 ∨ distance > 100 then true
  else if speed < 1 ∨ speed > 100 then true
  else false

/-- `processRow(row)`: parse fields, reject missing values, validate
coordinates, parse dates, derive distance and speed, reject outliers, and
build the `InsertTrip`.  `none` models the `return null` paths; the source's
`try`/`catch` cannot fire in this total model.  Note the record stores the
trimmed identifier `row.id.trim()`, modelled by `jsTrim row.id`. -/
def processRow (env : JSEnv) (row : RawTripData) : Option InsertTrip :=
  match env.parseIntS row.vendor_id, env.parseIntS row.passenger_count,
      env.parseFloatS row.pickup_longitude, env.parseFloatS row.pickup_latitude,
      env.parseFloatS row.dropoff_longitude, env.parseFloatS row.dropoff_latitude,
      env.parseIntS row.trip_duration with
  | some vendorId, some passengerCount, some pickupLon, some pickupLat,
      some dropoffLon, some dropoffLat, some tripDuration =>
    if jsTrim row.id = "" then none
    else if jsTrim row.store_and_fwd_flag = "" then none
    else if !(isValidNYCCoordinate pickupLat pickupLon &&
               isValidNYCCoordinate dropoffLat dropoffLon) then none
    else
      match env.parseDate row.pickup_datetime, env.parseDate row.dropoff_datetime with
      | some pickupDatetime, some dropoffDatetime =>
        let tripDistance := env.haversine pickupLat pickupLon dropoffLat dropoffLon
        let tripSpeed := calculateSpeed tripDistance (tripDuration : ℚ)
        if isOutlier (tripDuration : ℚ) tripDistance tripSpeed then none
        else some {
          id := jsTrim row.id
          vendorId := vendorId
          pickupDatetime := pickupDatetime
          dropoffDatetime := dropoffDatetime
          passengerCount := passengerCount
          pickupLongitude := pickupLon
          pickupLatitude := pickupLat
          dropoffLongitude := dropoffLon
          dropoffLatitude := dropoffLat
          storeAndFwdFlag := jsTrim row.store_and_fwd_flag
          tripDuration := tripDuration
          tripSpeed := tripSpeed
          tripDistance := tripDistance
          hourOfDay := pickupDatetime.hours
          dayOfWeek := pickupDatetime.day
          isWeekend := if pickupDatetime.day = 0 ∨ pickupDatetime.day = 6 then 1 else 0 }
      | _, _ => none
  | _, _, _, _, _, _, _ => none

/-! ## Streaming ingestion state -/

/-- `ProcessingStats` of server/dataProcessor.ts.  `invalidCoordinates` and
`outliers` are declared by the source but never incremented. -/
structure ProcessingStats where
  totalRows : ℕ
  validRows : ℕ
  duplicates : ℕ
  missingValues : ℕ
  invalidCoordinates : ℕ
  outliers : ℕ
  inserted : ℕ
deriving DecidableEq, Repr

/-- The mutable state of one ingestion run: the stats accumulator, the current
batch, the `seenIds` set (a list of raw identifier strings), and the trace of
batches handed to `db.insert` (in order, recorded whether or not the insert
succeeds). -/
structure ProcState where
  stats : ProcessingStats
  batch : List InsertTrip
  seenIds : List String
  flushes : List (List InsertTrip)
deriving DecidableEq, Repr

/-- The freshly initialised state at the top of either entry point. -/
def initState : ProcState :=
  { stats := { totalRows := 0, validRows := 0, duplicates := 0, missingValues := 0,
               invalidCoordinates := 0, outliers := 0, inserted := 0 }
    batch := [], seenIds := [], flushes := [] }

/-- Flush the current batch: hand it to `db.insert` (recorded in `flushes`),
add its length to `inserted` when the insert succeeds (the source's `.catch`
swallows a failure), and clear the batch. -/
def flushBatch (env : JSEnv) (st : ProcState) : ProcState :=
  { st with
    batch := []
    flushes := st.flushes ++ [st.batch]
    stats := { st.stats with
      inserted := st.stats.inserted +
        (if env.dbInsertOk st.batch then st.batch.length else 0) } }

/-- One `data` event of either run: `totalRows++`; duplicate check on the RAW
`row.id` against `seenIds`; `processRow`; on success register the raw id, push
the record, `validRows++`, and flush when the batch has reached `batchSize`. -/
def processRowEvent (env : JSEnv) (batchSize : ℕ) (st : ProcState)
    (row : RawTripData) : ProcState :=
  let st := { st with stats := { st.stats with totalRows := st.stats.totalRows + 1 } }
  if row.id ∈ st.seenIds then
    { st with stats := { st.stats with duplicates := st.stats.duplicates + 1 } }
  else
    match processRow env row with
    | none =>
      { st with stats := { st.stats with missingValues := st.stats.missingValues + 1 } }
    | some processed =>
      let st := { st with
        seenIds := row.id :: st.seenIds
        batch := st.batch ++ [processed]
        stats := { st.stats with validRows := st.stats.validRows + 1 } }
      if batchSize ≤ st.batch.length then flushBatch env st else st

/-- The state right after `processRowEvent` accepts record `c` for raw
identifier `rawId` and before the batch-size test: id registered, record
appended, `totalRows` and `validRows` incremented. -/
def acceptState (st : ProcState) (rawId : String) (c : InsertTrip) : ProcState :=
  { st with
    seenIds := rawId :: st.seenIds
    batch := st.batch ++ [c]
    stats := { st.stats with
      totalRows := st.stats.totalRows + 1
      validRows := st.stats.validRows + 1 } }

/-- The `end` handler: insert the remaining partial batch, if any. -/
def finishRun (env : JSEnv) (st : ProcState) : ProcState :=
  if st.batch = [] then st else flushBatch env st

/-- `processCSVFile(filePath, batchSize)`: the full run, modelled over the
list of rows the CSV stream yields. -/
def processCSVFile (env : JSEnv) (rows : List RawTripData) (batchSize : ℕ) :
    ProcState :=
  finishRun env (rows.foldl (processRowEvent env batchSize) initState)

/-- How a sampled run terminates.  `resolved st`: the source was exhausted,
the stream emitted `end`, the `end` handler flushed the trailing partial
batch and the promise resolved with the stats.  `hung st`: the target was
reached while the source still had rows, so the data handler called
`stream.pause(); stream.destroy()`; a destroyed stream emits no `end` event,
hence the `end` handler never runs — the trailing batch is never inserted
and the promise never settles.  In both constructors `st` is the state
accumulated so far (mid-run batch inserts were awaited, so they are already
reflected in it). -/
inductive SampleOutcome where
  | resolved (st : ProcState)
  | hung (st : ProcState)
deriving DecidableEq, Repr

/-- The accumulated state carried by either outcome. -/
def SampleOutcome.state : SampleOutcome → ProcState
  | SampleOutcome.resolved st => st
  | SampleOutcome.hung st => st

/-- The event loop of `processSampleData`: before handling each row the
handler first tests `stats.validRows >= sampleSize` and, if so, destroys the
stream — no further rows are consumed, `totalRows` is not incremented, and
no `end` event will ever fire, so the run hangs with its batch unflushed.
Only source exhaustion reaches the `end` handler, which flushes the
remaining partial batch and resolves. -/
def sampleRun (env : JSEnv) (sampleSize batchSize : ℕ) :
    ProcState → List RawTripData → SampleOutcome
  | st, [] => SampleOutcome.resolved (finishRun env st)
  | st, row :: rest =>
    if sampleSize ≤ st.stats.validRows then SampleOutcome.hung st
    else sampleRun env sampleSize batchSize (processRowEvent env batchSize st row) rest

/-- `processSampleData(filePath, sampleSize, batchSize)`: the sampled run. -/
def processSampleData (env : JSEnv) (rows : List RawTripData)
    (sampleSize batchSize : ℕ) : SampleOutcome :=
  sampleRun env sampleSize batchSize initState rows

/-- What the CSV stream can deliver: a parsed row, or a stream error. -/
inductive SourceEvent where
  | data (row : RawTripData)
  | sourceFail (msg : String)
deriving DecidableEq, Repr

/-- The full run over raw stream events.  A `sourceFail` event runs the
source's `error` handler, which calls `reject(error)`: the run aborts and the
caller receives ONLY the error value — the accumulated stats do not appear in
the result.  Without an error, the `end` handler flushes and resolves. -/
def processCSVLoop (env : JSEnv) (batchSize : ℕ) :
    ProcState → List SourceEvent → Except String ProcState
  | st, [] => Except.ok (finishRun env st)
  | st, SourceEvent.data row :: rest =>
    processCSVLoop env batchSize (processRowEvent env batchSize st row) rest
  | _, SourceEvent.sourceFail msg :: _ => Except.error msg

/-! ## Buffered-memory traces (for the backpressure claim) -/

/-- State of the full run after the first `t` rows. -/
def runPrefixState (env : JSEnv) (batchSize : ℕ) (rows : List RawTripData)
    (t : ℕ) : ProcState :=
  (rows.take t).foldl (processRowEvent env batchSize) initState

/-- Records buffered in memory by the FULL run after `t` rows, under a
completion schedule `completed` (`completed t` = how many of the dispatched
insert batches have finished by that time).  `processCSVFile` fires
`db.insert(...).then(...)` without awaiting it and without pausing the stream,
so every schedule with `completed t ≤` (batches dispatched by `t`) is
admissible — in particular the schedule in which no insert has completed yet. -/
def fullRunBufferedAt (env : JSEnv) (batchSize : ℕ) (rows : List RawTripData)
    (completed : ℕ → ℕ) (t : ℕ) : ℕ :=
  let st := runPrefixState env batchSize rows t
  st.batch.length + ((st.flushes.drop (completed t)).map List.length).sum

/-- Buffered-record snapshots of the SAMPLED run.  `processSampleData` pauses
the stream and awaits each batch insert, so a flush contributes one snapshot
taken while the insert is in flight (batch already cleared, the flushed batch
still in memory), followed by the post-insert snapshot. -/
def sampleSnapshots (env : JSEnv) (sampleSize batchSize : ℕ) :
    ProcState → List RawTripData → List ℕ
  | _, [] => []
  | st, row :: rest =>
    if sampleSize ≤ st.stats.validRows then []
    else
      let st' := processRowEvent env batchSize st row
      if st'.flushes.length = st.flushes.length then
        st'.batch.length :: sampleSnapshots env sampleSize batchSize st' rest
      else
        ((st'.flushes.getLastD []).length + st'.batch.length) ::
          st'.batch.length :: sampleSnapshots env sampleSize batchSize st' rest

/-- The bounds every produced CleanRecord must satisfy: geofence on both
coordinate pairs, duration in [60, 18000] s, distance in [0.1, 100] km,
speed in [1, 100] km/h. -/
def recordOk (rec : InsertTrip) : Prop :=
  (40.4 : ℚ) ≤ rec.pickupLatitude ∧ rec.pickupLatitude ≤ (41.0 : ℚ) ∧
  (-74.3 : ℚ) ≤ rec.pickupLongitude ∧ rec.pickupLongitude ≤ (-73.7 : ℚ) ∧
  (40.4 : ℚ) ≤ rec.dropoffLatitude ∧ rec.dropoffLatitude ≤ (41.0 : ℚ) ∧
  (-74.3 : ℚ) ≤ rec.dropoffLongitude ∧ rec.dropoffLongitude ≤ (-73.7 : ℚ) ∧
  (60 : ℤ) ≤ rec.tripDuration ∧ rec.tripDuration ≤ (18000 : ℤ) ∧
  (0.1 : ℚ) ≤ rec.tripDistance ∧ rec.tripDistance ≤ (100 : ℚ) ∧
  (1 : ℚ) ≤ rec.tripSpeed ∧ rec.tripSpeed ≤ (100 : ℚ)

instance (rec : InsertTrip) : Decidable (recordOk rec) := by
  unfold recordOk; infer_instance

/-- The batching invariant maintained by every run, whatever the sink does:
with `q` full batches flushed so far, `validRows = q * bs + |batch|`, the
current batch is strictly below capacity, and every flushed batch had exactly
`bs` records.  Additionally, in runs where every insert succeeds, `inserted`
counts exactly the flushed records. -/
def batchInv (env : JSEnv) (bs : ℕ) (st : ProcState) : Prop :=
  ∃ q, st.stats.validRows = q * bs + st.batch.length ∧ st.batch.length < bs ∧
    st.flushes.map List.length = List.replicate q bs ∧
    ((∀ b, env.dbInsertOk b = true) → st.stats.inserted = q * bs)

/-! ## A concrete computable environment and rows, used by witnesses and
counterexamples -/

/-- A concrete computable environment: the parsers are finite string tables
covering the raw values the test rows use, any non-empty string is a valid
date with hour 0 and weekday 1, the distance function is constantly 5 km, and
every insert succeeds. -/
def env0 : JSEnv :=
  { parseIntS := fun s =>
      if s = "1" then some 1 else if s = "2" then some 2
      else if s = "3" then some 3 else if s = "600" then some 600 else none
    parseFloatS := fun s =>
      if s = "-740" then some (-74) else if s = "405" then some 40.5
      else if s = "-739" then some (-73.9) else if s = "407" then some 40.7
      else none
    parseDate := fun s => if s = "" then none else some { hours := 0, day := 1 }
    haversine := fun _ _ _ _ => 5
    dbInsertOk := fun _ => true }

/-- A fully valid raw row with identifier `id` and vendor field `v`:
coordinates inside the geofence, duration 600 s, derived speed 30 km/h
under `env0`. -/
def mkRow (id v : String) : RawTripData :=
  { id := id, vendor_id := v, pickup_datetime := "t", dropoff_datetime := "t"
    passenger_count := "1", pickup_longitude := "-740", pickup_latitude := "405"
    dropoff_longitude := "-739", dropoff_latitude := "407"
    store_and_fwd_flag := "N", trip_duration := "600" }

/-- Valid rows with distinct identifiers. -/
def rowA : RawTripData := mkRow "a1" "2"

def rowB : RawTripData := mkRow "b2" "2"

def rowC : RawTripData := mkRow "c3" "2"

def rowD : RawTripData := mkRow "d4" "2"

def rowE : RawTripData := mkRow "e5" "2"

/-- A row whose vendor id fails to parse: `processRow` rejects it. -/
def rowBadX : RawTripData := mkRow "dup1" "zz"

/-- A valid row with the same identifier as `rowBadX`. -/
def rowGoodX : RawTripData := mkRow "dup1" "2"

/-- A valid row whose identifier is `rowA`'s with surrounding whitespace;
all other fields equal, so it produces exactly the clean record `recA`. -/
def rowASpaced : RawTripData := mkRow " a1 " "2"

/-- The clean record `processRow env0` produces for a `mkRow id "2"` row,
as a function of the (already trimmed) identifier. -/
def recFor (id : String) : InsertTrip :=
  { id := id, vendorId := 2, pickupDatetime := { hours := 0, day := 1 }
    dropoffDatetime := { hours := 0, day := 1 }, passengerCount := 1
    pickupLongitude := -74, pickupLatitude := 40.5
    dropoffLongitude := -73.9, dropoffLatitude := 40.7
    storeAndFwdFlag := "N", tripDuration := 600, tripSpeed := 30
    tripDistance := 5, hourOfDay := 0, dayOfWeek := 1, isWeekend := 0 }

/-- The clean record `processRow env0 rowA` produces. -/
def recA : InsertTrip := recFor "a1"

/-- A state whose dedup set already contains the raw identifier "a1". -/
def stSeenA : ProcState := { initState with seenIds := ["a1"] }

/-! ## Generic helpers -/

/-- Invariant preservation along a left fold. -/
theorem foldlInvariant {α σ : Type} (f : σ → α → σ) (P : σ → Prop)
    (h : ∀ s a, P s → P (f s a)) : ∀ (l : List α) (s : σ), P s → P (l.foldl f s) := by
  intro l
  induction l with
  | nil => exact fun s hs => hs
  | cons a t ih => exact fun s hs => ih (f s a) (h s a hs)

/-! ## GeoMath lemmas -/

/-- The squared-sine term of the haversine formula only depends on the
difference of the two angles up to sign. -/
theorem sin_sq_swap (u v : ℝ) :
    Real.sin (toRad (u - v) / 2) * Real.sin (toRad (u - v) / 2) =
      Real.sin (toRad (v - u) / 2) * Real.sin (toRad (v - u) / 2) := by
  have h : toRad (u - v) / 2 = -(toRad (v - u) / 2) := by unfold toRad; ring
  rw [h, Real.sin_neg]; ring

/-- The haversine intermediate value is symmetric in its two points. -/
theorem havA_symm (lat1 lon1 lat2 lon2 : ℝ) :
    havA lat1 lon1 lat2 lon2 = havA lat2 lon2 lat1 lon1 := by
  unfold havA
  rw [sin_sq_swap lat2 lat1, sin_sq_swap lon2 lon1]
  ring

/-- The haversine intermediate value vanishes on coincident points. -/
theorem havA_self (lat lon : ℝ) : havA lat lon lat lon = 0 := by
  unfold havA toRad
  simp

/-- `atan2 y x` is nonnegative whenever `y` is. -/
theorem atan2_nonneg (y x : ℝ) (hy : 0 ≤ y) : 0 ≤ atan2 y x := by
  unfold atan2
  by_cases h1 : 0 < x
  · rw [if_pos h1]
    have hq : 0 ≤ y / x := div_nonneg hy h1.le
    have h := Real.arctan_strictMono.monotone hq
    rwa [Real.arctan_zero] at h
  · rw [if_neg h1]
    by_cases h2 : x < 0
    · rw [if_pos h2, if_pos hy]
      have h := Real.neg_pi_div_two_lt_arctan (y / x)
      have hπ := Real.pi_pos
      linarith
    · rw [if_neg h2]
      by_cases h4 : 0 < y
      · rw [if_pos h4]
        have hπ := Real.pi_pos
        linarith
      · rw [if_neg h4, if_neg (by linarith : ¬y < 0)]

/-- C8: for every distance `d` and duration `s`, `calculateSpeed d s` equals
`d / (s / 3600)` when `s ≠ 0`, and equals `0` when `s = 0` — always a defined
result, never a division fault. -/
theorem claim_C8_speed_total : ∀ d s : ℚ,
    (s ≠ 0 → calculateSpeed d s = d / (s / 3600)) ∧ calculateSpeed d 0 = 0 := by
  intro d s
  constructor
  · intro hs
    unfold calculateSpeed
    rw [if_neg hs]
  · unfold calculateSpeed
    rw [if_pos rfl]

/-- Witness for C8 at a concrete input. -/
theorem claim_C8_speed_total_witness :
    calculateSpeed 7 2 = 7 / ((2 : ℚ) / 3600) ∧ calculateSpeed 7 0 = 0 :=
  ⟨(claim_C8_speed_total 7 2).1 (by norm_num), (claim_C8_speed_total 7 0).2⟩

/-- C9: `calculateHaversineDistance` is symmetric in its two coordinate
pairs, returns 0 for coincident points, and is never negative. -/
theorem claim_C9_haversine_props : ∀ lat1 lon1 lat2 lon2 : ℝ,
    calculateHaversineDistance lat1 lon1 lat2 lon2 =
      calculateHaversineDistance lat2 lon2 lat1 lon1 ∧
    calculateHaversineDistance lat1 lon1 lat1 lon1 = 0 ∧
    0 ≤ calculateHaversineDistance lat1 lon1 lat2 lon2 := by
  intro lat1 lon1 lat2 lon2
  refine ⟨?_, ?_, ?_⟩
  · simp only [calculateHaversineDistance]
    rw [havA_symm lat1 lon1 lat2 lon2]
  · simp only [calculateHaversineDistance]
    rw [havA_self lat1 lon1]
    norm_num [atan2, Real.arctan_zero]
  · simp only [calculateHaversineDistance]
    have h := atan2_nonneg (Real.sqrt (havA lat1 lon1 lat2 lon2))
      (Real.sqrt (1 - havA lat1 lon1 lat2 lon2))
      (Real.sqrt_nonneg (havA lat1 lon1 lat2 lon2))
    nlinarith

/-! ## Pipeline step characterisation -/

/-- A duplicate raw identifier: only `totalRows` and `duplicates` change. -/
theorem processRowEvent_seen (env : JSEnv) (bs : ℕ) (st : ProcState)
    (row : RawTripData) (h : row.id ∈ st.seenIds) :
    processRowEvent env bs st row =
      { st with stats := { st.stats with
          totalRows := st.stats.totalRows + 1
          duplicates := st.stats.duplicates + 1 } } := by
  unfold processRowEvent
  simp [h]

/-- A rejected row: only `totalRows` and `missingValues` change. -/
theorem processRowEvent_rejected (env : JSEnv) (bs : ℕ) (st : ProcState)
    (row : RawTripData) (h : row.id ∉ st.seenIds)
    (hp : processRow env row = none) :
    processRowEvent env bs st row =
      { st with stats := { st.stats with
          totalRows := st.stats.totalRows + 1
          missingValues := st.stats.missingValues + 1 } } := by
  unfold processRowEvent
  simp [h, hp]

/-- An accepted row: register the raw identifier, append the record, bump the
counters, and flush exactly when the batch has reached `bs`. -/
theorem processRowEvent_accepted (env : JSEnv) (bs : ℕ) (st : ProcState)
    (row : RawTripData) (c : InsertTrip) (h : row.id ∉ st.seenIds)
    (hp : processRow env row = some c) :
    processRowEvent env bs st row =
      if bs ≤ st.batch.length + 1 then flushBatch env (acceptState st row.id c)
      else acceptState st row.id c := by
  unfold processRowEvent acceptState
  simp [h, hp]

/-- `flushBatch` does not touch the row counters or the dedup set. -/
theorem flushBatch_counts (env : JSEnv) (st : ProcState) :
    (flushBatch env st).stats.totalRows = st.stats.totalRows ∧
    (flushBatch env st).stats.validRows = st.stats.validRows ∧
    (flushBatch env st).stats.duplicates = st.stats.duplicates ∧
    (flushBatch env st).stats.missingValues = st.stats.missingValues ∧
    (flushBatch env st).seenIds = st.seenIds := by
  unfold flushBatch
  exact ⟨rfl, rfl, rfl, rfl, rfl⟩

/-- `finishRun` does not touch the row counters or the dedup set. -/
theorem finishRun_counts (env : JSEnv) (st : ProcState) :
    (finishRun env st).stats.totalRows = st.stats.totalRows ∧
    (finishRun env st).stats.validRows = st.stats.validRows ∧
    (finishRun env st).stats.duplicates = st.stats.duplicates ∧
    (finishRun env st).stats.missingValues = st.stats.missingValues ∧
    (finishRun env st).seenIds = st.seenIds := by
  unfold finishRun
  split
  · exact ⟨rfl, rfl, rfl, rfl, rfl⟩
  · exact flushBatch_counts env st

/-! ## Concrete evaluation lemmas for the test environment -/

/-- Every step increments `totalRows` by exactly one. -/
theorem processRowEvent_totalRows (env : JSEnv) (bs : ℕ) (st : ProcState)
    (row : RawTripData) :
    (processRowEvent env bs st row).stats.totalRows = st.stats.totalRows + 1 := by
  by_cases hm : row.id ∈ st.seenIds
  · rw [processRowEvent_seen env bs st row hm]
  · cases hp : processRow env row with
    | none => rw [processRowEvent_rejected env bs st row hm hp]
    | some c =>
      rw [processRowEvent_accepted env bs st row c hm hp]
      split
      · exact (flushBatch_counts env _).1
      · rfl

theorem calculateSpeed_600 : calculateSpeed 5 (600 : ℚ) = 30 := by
  unfold calculateSpeed
  rw [if_neg (by norm_num)]
  norm_num

theorem isValidNYC_pickup : isValidNYCCoordinate 40.5 (-74) = true := by
  unfold isValidNYCCoordinate
  simp only [Bool.and_eq_true, decide_eq_true_eq]
  norm_num

theorem isValidNYC_dropoff : isValidNYCCoordinate 40.7 (-73.9) = true := by
  unfold isValidNYCCoordinate
  simp only [Bool.and_eq_true, decide_eq_true_eq]
  norm_num

theorem isOutlier_600 : isOutlier (600 : ℚ) 5 30 = false := by
  unfold isOutlier
  rw [if_neg (by norm_num), if_neg (by norm_num), if_neg (by norm_num)]

theorem jsTrim_N : jsTrim "N" = "N" := by decide

/-- `processRow` under `env0` accepts every `mkRow id "2"` row whose trimmed
identifier is nonempty, producing `recFor (jsTrim id)`. -/
theorem processRow_env0_valid (id : String) (h : jsTrim id ≠ "") :
    processRow env0 (mkRow id "2") = some (recFor (jsTrim id)) := by
  unfold processRow mkRow env0 recFor
  simp [h, jsTrim_N, calculateSpeed_600, isValidNYC_pickup, isValidNYC_dropoff,
    isOutlier_600]

/-- `processRow` under `env0` rejects a row whose vendor field is "zz". -/
theorem processRow_env0_badVendor (id : String) :
    processRow env0 (mkRow id "zz") = none := by
  unfold processRow mkRow env0
  simp

theorem processRow_env0_rowA : processRow env0 rowA = some recA := by
  have h := processRow_env0_valid "a1" (by decide)
  rw [show jsTrim "a1" = "a1" from by decide] at h
  exact h

theorem processRow_env0_rowB : processRow env0 rowB = some (recFor "b2") := by
  have h := processRow_env0_valid "b2" (by decide)
  rw [show jsTrim "b2" = "b2" from by decide] at h
  exact h

theorem processRow_env0_rowC : processRow env0 rowC = some (recFor "c3") := by
  have h := processRow_env0_valid "c3" (by decide)
  rw [show jsTrim "c3" = "c3" from by decide] at h
  exact h

theorem processRow_env0_rowGoodX : processRow env0 rowGoodX = some (recFor "dup1") := by
  have h := processRow_env0_valid "dup1" (by decide)
  rw [show jsTrim "dup1" = "dup1" from by decide] at h
  exact h

theorem processRow_env0_rowASpaced : processRow env0 rowASpaced = some recA := by
  have h := processRow_env0_valid " a1 " (by decide)
  rw [show jsTrim " a1 " = "a1" from by decide] at h
  exact h

/-- One step preserves the counter partition `totalRows = validRows +
missingValues + duplicates`. -/
theorem partition_step (env : JSEnv) (bs : ℕ) (st : ProcState) (row : RawTripData)
    (h : st.stats.totalRows =
      st.stats.validRows + st.stats.missingValues + st.stats.duplicates) :
    (processRowEvent env bs st row).stats.totalRows =
      (processRowEvent env bs st row).stats.validRows +
      (processRowEvent env bs st row).stats.missingValues +
      (processRowEvent env bs st row).stats.duplicates := by
  by_cases hm : row.id ∈ st.seenIds
  · rw [processRowEvent_seen env bs st row hm]
    simpa using by omega
  · cases hp : processRow env row with
    | none =>
      rw [processRowEvent_rejected env bs st row hm hp]
      simpa using by omega
    | some c =>
      rw [processRowEvent_accepted env bs st row c hm hp]
      split
      · simp only [flushBatch, acceptState]
        simpa using by omega
      · simp only [acceptState]
        simpa using by omega

/-- Definitional unfolding of the sampled run on a cons cell. -/
theorem sampleRun_cons (env : JSEnv) (t bs : ℕ) (st : ProcState)
    (row : RawTripData) (rest : List RawTripData) :
    sampleRun env t bs st (row :: rest) =
      if t ≤ st.stats.validRows then SampleOutcome.hung st
      else sampleRun env t bs (processRowEvent env bs st row) rest := rfl

/-- The sampled run preserves the counter partition, whether the stream ends
naturally or is destroyed early. -/
theorem partition_sampleRun (env : JSEnv) (ss bs : ℕ) :
    ∀ (rows : List RawTripData) (st : ProcState),
      st.stats.totalRows =
        st.stats.validRows + st.stats.missingValues + st.stats.duplicates →
      (sampleRun env ss bs st rows).state.stats.totalRows =
        (sampleRun env ss bs st rows).state.stats.validRows +
        (sampleRun env ss bs st rows).state.stats.missingValues +
        (sampleRun env ss bs st rows).state.stats.duplicates := by
  intro rows
  induction rows with
  | nil =>
    intro st h
    show (finishRun env st).stats.totalRows =
      (finishRun env st).stats.validRows +
      (finishRun env st).stats.missingValues +
      (finishRun env st).stats.duplicates
    obtain ⟨ht, hv, hd, hmv, -⟩ := finishRun_counts env st
    rw [ht, hv, hd, hmv]
    exact h
  | cons r rs ih =>
    intro st h
    rw [sampleRun_cons]
    by_cases hstop : ss ≤ st.stats.validRows
    · rw [if_pos hstop]
      exact h
    · rw [if_neg hstop]
      exact ih _ (partition_step env bs st r h)

/-- C2: at the end of every run — full, or sampled whether the stream ends
naturally or is destroyed early — the accumulated counters partition the
input exactly: `totalRows = validRows + missingValues + duplicates` (the
source's `invalidCoordinates` and `outliers` counters are never incremented,
so `missingValues` is the whole invalid count). -/
theorem claim_C2_counters_partition :
    ∀ (env : JSEnv) (rows : List RawTripData) (bs ss : ℕ),
      (processCSVFile env rows bs).stats.totalRows =
        (processCSVFile env rows bs).stats.validRows +
        (processCSVFile env rows bs).stats.missingValues +
        (processCSVFile env rows bs).stats.duplicates ∧
      (processSampleData env rows ss bs).state.stats.totalRows =
        (processSampleData env rows ss bs).state.stats.validRows +
        (processSampleData env rows ss bs).state.stats.missingValues +
        (processSampleData env rows ss bs).state.stats.duplicates := by
  intro env rows bs ss
  constructor
  · unfold processCSVFile
    obtain ⟨ht, hv, hd, hmv, -⟩ :=
      finishRun_counts env (rows.foldl (processRowEvent env bs) initState)
    rw [ht, hv, hd, hmv]
    exact foldlInvariant (processRowEvent env bs)
      (fun st => st.stats.totalRows =
        st.stats.validRows + st.stats.missingValues + st.stats.duplicates)
      (fun st row h => partition_step env bs st row h) rows initState rfl
  · unfold processSampleData
    exact partition_sampleRun env ss bs rows initState rfl

/-- C1 counterexample: a run in which the identifier "dup1" appears twice,
first on a row with an unparseable vendor field (rejected), then on a fully
valid row.  The claim demands the second occurrence be counted as a duplicate
and never as valid; the code counts it as valid (`duplicates = 0`,
`validRows = 1`), because identifiers are only registered in `seenIds` after a
row passes validation. -/
theorem claim_C1_counterexample :
    (processCSVFile env0 [rowBadX, rowGoodX] 1000).stats.duplicates = 0 ∧
    (processCSVFile env0 [rowBadX, rowGoodX] 1000).stats.validRows = 1 := by
  have hbad : processRow env0 rowBadX = none := processRow_env0_badVendor "dup1"
  unfold processCSVFile
  rw [List.foldl_cons, processRowEvent_rejected env0 1000 initState rowBadX
    (by simp [initState]) hbad]
  rw [List.foldl_cons,
    processRowEvent_accepted env0 1000 _ rowGoodX (recFor "dup1")
      (by simp [initState]) processRow_env0_rowGoodX]
  rw [if_neg (by simp [initState])]
  rw [List.foldl_nil]
  obtain ⟨-, hv, hd, -, -⟩ := finishRun_counts env0 _
  rw [hd, hv]
  simp [acceptState, initState]

/-- C1 amended: a record is counted as a duplicate exactly when its raw
identifier is already registered in `seenIds`, in which case `duplicates`
increments by exactly one and the record is not counted valid (regardless of
its own payload); and `seenIds` registers an identifier only when its row is
accepted, so a repeat of a rejected-only identifier is not flagged. -/
theorem claim_C1_dedup_registration :
    ∀ (env : JSEnv) (bs : ℕ) (st : ProcState) (row : RawTripData),
      (row.id ∈ st.seenIds →
        (processRowEvent env bs st row).stats.duplicates = st.stats.duplicates + 1 ∧
        (processRowEvent env bs st row).stats.validRows = st.stats.validRows ∧
        (processRowEvent env bs st row).seenIds = st.seenIds ∧
        (processRowEvent env bs st row).batch = st.batch) ∧
      (row.id ∉ st.seenIds →
        (processRowEvent env bs st row).stats.duplicates = st.stats.duplicates) ∧
      (row.id ∉ st.seenIds → processRow env row = none →
        (processRowEvent env bs st row).seenIds = st.seenIds) ∧
      (∀ c : InsertTrip, row.id ∉ st.seenIds → processRow env row = some c →
        (processRowEvent env bs st row).seenIds = row.id :: st.seenIds) := by
  intro env bs st row
  refine ⟨?_, ?_, ?_, ?_⟩
  · intro h
    rw [processRowEvent_seen env bs st row h]
    exact ⟨rfl, rfl, rfl, rfl⟩
  · intro h
    cases hp : processRow env row with
    | none => rw [processRowEvent_rejected env bs st row h hp]
    | some c =>
      rw [processRowEvent_accepted env bs st row c h hp]
      split
      · exact (flushBatch_counts env _).2.2.1
      · rfl
  · intro h hp
    rw [processRowEvent_rejected env bs st row h hp]
  · intro c h hp
    rw [processRowEvent_accepted env bs st row c h hp]
    split
    · exact (flushBatch_counts env _).2.2.2.2
    · rfl

/-- Witness for the amended C1: a repeated raw identifier on a state that has
already accepted it increments `duplicates` and leaves `validRows` alone. -/
theorem claim_C1_dedup_registration_witness :
    (processRowEvent env0 1000 stSeenA rowA).stats.duplicates =
      stSeenA.stats.duplicates + 1 ∧
    (processRowEvent env0 1000 stSeenA rowA).stats.validRows =
      stSeenA.stats.validRows := by
  have h := (claim_C1_dedup_registration env0 1000 stSeenA rowA).1 (by decide)
  exact ⟨h.1, h.2.1⟩

/-! ## Batching invariant proofs (claim C4) -/

theorem batchInv_init (env : JSEnv) (bs : ℕ) (hbs : 1 ≤ bs) :
    batchInv env bs initState :=
  ⟨0, by simp [initState], by simpa [initState] using hbs, by simp [initState],
    fun _ => by simp [initState]⟩

theorem batchInv_step (env : JSEnv) (bs : ℕ) (hbs : 1 ≤ bs) (st : ProcState)
    (row : RawTripData) (h : batchInv env bs st) :
    batchInv env bs (processRowEvent env bs st row) := by
  obtain ⟨q, hv, hlt, hf, hi⟩ := h
  by_cases hm : row.id ∈ st.seenIds
  · rw [processRowEvent_seen env bs st row hm]
    exact ⟨q, hv, hlt, hf, hi⟩
  · cases hp : processRow env row with
    | none =>
      rw [processRowEvent_rejected env bs st row hm hp]
      exact ⟨q, hv, hlt, hf, hi⟩
    | some c =>
      rw [processRowEvent_accepted env bs st row c hm hp]
      by_cases hfl : bs ≤ st.batch.length + 1
      · rw [if_pos hfl]
        have hlen : st.batch.length + 1 = bs := le_antisymm hlt hfl
        refine ⟨q + 1, ?_, ?_, ?_, ?_⟩
        · simp only [flushBatch, acceptState]
          rw [hv, ← hlen]
          simp
          ring
        · simpa [flushBatch] using hbs
        · simp only [flushBatch, acceptState]
          rw [List.map_append, hf, List.replicate_succ']
          simp [hlen]
        · intro hsink
          simp only [flushBatch, acceptState, hsink]
          simp only [if_true]
          rw [hi hsink, ← hlen]
          simp
          ring
      · rw [if_neg hfl]
        refine ⟨q, ?_, ?_, ?_, ?_⟩
        · simp only [acceptState]
          rw [hv]
          simp
          ring
        · simp only [acceptState]
          simp only [List.length_append, List.length_cons, List.length_nil]
          omega
        · simp [acceptState, hf]
        · intro hsink
          simp [acceptState, hi hsink]

theorem batchInv_finish (env : JSEnv) (bs : ℕ) (hbs : 1 ≤ bs) (st : ProcState)
    (h : batchInv env bs st) :
    (finishRun env st).flushes.map List.length =
      List.replicate ((finishRun env st).stats.validRows / bs) bs ++
        (if (finishRun env st).stats.validRows % bs = 0 then []
         else [(finishRun env st).stats.validRows % bs]) ∧
    ((∀ b, env.dbInsertOk b = true) →
      (finishRun env st).stats.inserted = (finishRun env st).stats.validRows) := by
  obtain ⟨q, hv, hlt, hf, hi⟩ := h
  unfold finishRun
  by_cases hb : st.batch = []
  · rw [if_pos hb]
    have hlen0 : st.batch.length = 0 := by simp [hb]
    have hv0 : st.stats.validRows = q * bs := by
      rw [hv, hlen0]
      exact Nat.add_zero _
    have hdiv : st.stats.validRows / bs = q := by
      rw [hv0]
      exact Nat.mul_div_cancel q hbs
    have hmod : st.stats.validRows % bs = 0 := by
      rw [hv0]
      exact Nat.mul_mod_left q bs
    constructor
    · rw [hf, hdiv, hmod, if_pos rfl, List.append_nil]
    · intro hsink
      rw [hi hsink, hv0]
  · rw [if_neg hb]
    have hpos : 0 < st.batch.length := List.length_pos.mpr hb
    have hdiv : st.stats.validRows / bs = q := by
      rw [hv, add_comm, Nat.add_mul_div_right _ _ hbs, Nat.div_eq_of_lt hlt,
        Nat.zero_add]
    have hmod : st.stats.validRows % bs = st.batch.length := by
      rw [hv, add_comm, Nat.add_mul_mod_self_right]
      exact Nat.mod_eq_of_lt hlt
    have hmodne : st.stats.validRows % bs ≠ 0 := by
      rw [hmod]
      omega
    constructor
    · simp only [flushBatch]
      rw [List.map_append, hf]
      simp [hdiv, hmod, hmodne, hb]
    · intro hsink
      simp only [flushBatch, hsink, if_true]
      rw [hi hsink, hv]

/-- C4: in EVERY full run with batch size `bs ≥ 1` — whatever the sink does —
every mid-run flush hands exactly `bs` records to the sink (flushes occur
exactly as `validRows` passes each multiple of `bs`) and a final partial
flush of `validRows % bs` records occurs if and only if that remainder is
non-zero; additionally, when every insert succeeds, `inserted = validRows`. -/
theorem claim_C4_batch_flush :
    ∀ (env : JSEnv) (rows : List RawTripData) (bs : ℕ),
      1 ≤ bs →
      (processCSVFile env rows bs).flushes.map List.length =
        List.replicate ((processCSVFile env rows bs).stats.validRows / bs) bs ++
          (if (processCSVFile env rows bs).stats.validRows % bs = 0 then []
           else [(processCSVFile env rows bs).stats.validRows % bs]) ∧
      ((∀ b, env.dbInsertOk b = true) →
        (processCSVFile env rows bs).stats.inserted =
          (processCSVFile env rows bs).stats.validRows) := by
  intro env rows bs hbs
  have hinv : batchInv env bs (rows.foldl (processRowEvent env bs) initState) :=
    foldlInvariant _ (batchInv env bs)
      (fun st row h => batchInv_step env bs hbs st row h)
      rows initState (batchInv_init env bs hbs)
  exact batchInv_finish env bs hbs _ hinv

/-- Witness for C4: the full run over five valid records with batch size 2,
with both the unconditional flush pattern and, since the test sink always
succeeds, the discharged inserted count. -/
theorem claim_C4_batch_flush_witness :
    (processCSVFile env0 [rowA, rowB, rowC, rowD, rowE] 2).flushes.map List.length =
      List.replicate
        ((processCSVFile env0 [rowA, rowB, rowC, rowD, rowE] 2).stats.validRows / 2) 2 ++
        (if (processCSVFile env0 [rowA, rowB, rowC, rowD, rowE] 2).stats.validRows % 2 = 0
         then []
         else [(processCSVFile env0 [rowA, rowB, rowC, rowD, rowE] 2).stats.validRows % 2]) ∧
    (processCSVFile env0 [rowA, rowB, rowC, rowD, rowE] 2).stats.inserted =
      (processCSVFile env0 [rowA, rowB, rowC, rowD, rowE] 2).stats.validRows := by
  have h := claim_C4_batch_flush env0 [rowA, rowB, rowC, rowD, rowE] 2 (by norm_num)
  exact ⟨h.1, h.2 (fun _ => rfl)⟩

/-! ## The destroyed sampled run (claim C3) -/

/-- C3: the code violates the claim.  When the sampled run reaches
`targetValidCount` while the source still has rows, the data handler calls
`stream.pause(); stream.destroy()`; a destroyed stream emits no `end` event,
so the `end` handler — the only place the trailing partial batch is inserted
and the promise resolved — never runs.  Over a source of three valid records
with target 2 and batch size 500 (the sampled default), the run is left
hanging with both accepted records still in the unflushed batch:
`inserted = 0`, not the claimed `targetValidCount = 2`.  The spec's own
scenario (target 5, batch size 500, 100 valid records) fails the same way. -/
theorem claim_C3_destroyed_run_no_insert :
    processSampleData env0 [rowA, rowB, rowC] 2 500 =
      SampleOutcome.hung
        (acceptState (acceptState initState rowA.id recA) rowB.id (recFor "b2")) ∧
    (processSampleData env0 [rowA, rowB, rowC] 2 500).state.stats.validRows = 2 ∧
    (processSampleData env0 [rowA, rowB, rowC] 2 500).state.stats.inserted = 0 ∧
    (processSampleData env0 [rowA, rowB, rowC] 2 500).state.batch.length = 2 := by
  have h : processSampleData env0 [rowA, rowB, rowC] 2 500 =
      SampleOutcome.hung
        (acceptState (acceptState initState rowA.id recA) rowB.id (recFor "b2")) := by
    unfold processSampleData
    rw [sampleRun_cons, if_neg (by decide),
      processRowEvent_accepted env0 500 initState rowA recA (by decide)
        processRow_env0_rowA,
      if_neg (by decide)]
    rw [sampleRun_cons, if_neg (by decide),
      processRowEvent_accepted env0 500 _ rowB (recFor "b2") (by decide)
        processRow_env0_rowB,
      if_neg (by decide)]
    rw [sampleRun_cons, if_pos (by decide)]
  refine ⟨h, ?_, ?_, ?_⟩
  · rw [h]
    decide
  · rw [h]
    decide
  · rw [h]
    decide

/-! ## Concrete three-record run under the test environment -/

/-- The full run over `[rowA, rowB, rowC]` with batch size 1, computed
explicitly: every record is accepted and flushed on its own. -/
theorem run3_state :
    [rowA, rowB, rowC].foldl (processRowEvent env0 1) initState =
      { stats := { totalRows := 3, validRows := 3, duplicates := 0,
                   missingValues := 0, invalidCoordinates := 0, outliers := 0,
                   inserted := 3 }
        batch := [], seenIds := [rowC.id, rowB.id, rowA.id]
        flushes := [[recA], [recFor "b2"], [recFor "c3"]] } := by
  rw [List.foldl_cons,
    processRowEvent_accepted env0 1 initState rowA recA (by decide)
      processRow_env0_rowA,
    if_pos (by decide)]
  rw [List.foldl_cons,
    processRowEvent_accepted env0 1 _ rowB (recFor "b2") (by decide)
      processRow_env0_rowB,
    if_pos (by decide)]
  rw [List.foldl_cons,
    processRowEvent_accepted env0 1 _ rowC (recFor "c3") (by decide)
      processRow_env0_rowC,
    if_pos (by decide)]
  rw [List.foldl_nil]
  simp [flushBatch, acceptState, initState, env0]

/-! ## processRow inversion (claims C5 and C10) -/

/-- A false `isOutlier` yields the full plausibility bounds. -/
theorem isOutlier_false {duration distance speed : ℚ}
    (h : isOutlier duration distance speed = false) :
    60 ≤ duration ∧ duration ≤ 18000 ∧ (0.1 : ℚ) ≤ distance ∧ distance ≤ 100 ∧
    1 ≤ speed ∧ speed ≤ 100 := by
  unfold isOutlier at h
  by_cases h1 : duration < 60 ∨ duration > 3600 * 5
  · rw [if_pos h1] at h
    exact absurd h (by simp)
  · rw [if_neg h1] at h
    by_cases h2 : distance < 0.1 ∨ distance > 100
    · rw [if_pos h2] at h
      exact absurd h (by simp)
    · rw [if_neg h2] at h
      by_cases h3 : speed < 1 ∨ speed > 100
      · rw [if_pos h3] at h
        exact absurd h (by simp)
      · push_neg at h1 h2 h3
        exact ⟨h1.1, by linarith [h1.2], h2.1, h2.2, h3.1, h3.2⟩

/-- A Bool that is not true is false. -/
theorem bool_not_true {b : Bool} (h : ¬b = true) : b = false := by
  cases b
  · rfl
  · exact absurd rfl h

/-- A Bool whose negation is false is true. -/
theorem bool_not_false {b : Bool} (h : (!b) = false) : b = true := by
  cases b
  · exact absurd h (by simp)
  · rfl

/-- Inversion for `processRow`: an accepted record satisfies every geofence
and plausibility bound, and stores the trimmed raw identifier. -/
theorem processRow_spec (env : JSEnv) (row : RawTripData) (rec : InsertTrip)
    (h : processRow env row = some rec) :
    recordOk rec ∧ rec.id = jsTrim row.id := by
  unfold processRow at h
  split at h
  case h_2 => exact Option.noConfusion h
  case h_1 =>
    split at h
    · exact Option.noConfusion h
    · split at h
      · exact Option.noConfusion h
      · split at h
        · exact Option.noConfusion h
        · rename_i hcoord
          dsimp only at h
          split at h
          case h_2 => exact Option.noConfusion h
          case h_1 =>
            split at h
            · exact Option.noConfusion h
            · rename_i hout
              have hco := bool_not_false (bool_not_true hcoord)
              rw [Bool.and_eq_true] at hco
              obtain ⟨hA, hB⟩ := hco
              simp only [isValidNYCCoordinate, Bool.and_eq_true,
                decide_eq_true_eq] at hA hB
              obtain ⟨hd1, hd2, hx1, hx2, hs1, hs2⟩ :=
                isOutlier_false (bool_not_true hout)
              have hrec := Option.some.inj h
              subst hrec
              refine ⟨⟨hA.1.1.1, hA.1.1.2, hA.1.2, hA.2,
                hB.1.1.1, hB.1.1.2, hB.1.2, hB.2,
                ?_, ?_, hx1, hx2, hs1, hs2⟩, rfl⟩
              · exact_mod_cast hd1
              · exact_mod_cast hd2

/-- One step preserves "every batched and every flushed record is in
bounds". -/
theorem recordOk_step (env : JSEnv) (bs : ℕ) (st : ProcState) (row : RawTripData)
    (h : (∀ b ∈ st.flushes, ∀ r ∈ b, recordOk r) ∧ ∀ r ∈ st.batch, recordOk r) :
    (∀ b ∈ (processRowEvent env bs st row).flushes, ∀ r ∈ b, recordOk r) ∧
    ∀ r ∈ (processRowEvent env bs st row).batch, recordOk r := by
  by_cases hm : row.id ∈ st.seenIds
  · rw [processRowEvent_seen env bs st row hm]
    exact h
  · cases hp : processRow env row with
    | none =>
      rw [processRowEvent_rejected env bs st row hm hp]
      exact h
    | some c =>
      have hc : recordOk c := (processRow_spec env row c hp).1
      have hbatch : ∀ r ∈ st.batch ++ [c], recordOk r := by
        intro r hr
        rcases List.mem_append.mp hr with hr | hr
        · exact h.2 r hr
        · rw [List.mem_singleton.mp hr]
          exact hc
      rw [processRowEvent_accepted env bs st row c hm hp]
      split
      · refine ⟨?_, ?_⟩
        · intro b hb r hr
          simp only [flushBatch, acceptState] at hb
          rcases List.mem_append.mp hb with hb | hb
          · exact h.1 b hb r hr
          · rw [List.mem_singleton.mp hb] at hr
            exact hbatch r hr
        · intro r hr
          simp only [flushBatch] at hr
          exact absurd hr (List.not_mem_nil r)
      · exact ⟨fun b hb r hr => h.1 b hb r hr, hbatch⟩

/-- C5: every CleanRecord the pipeline produces — every record inside any
batch handed to the sink over a full run — satisfies all geofence and
plausibility bounds: both coordinate pairs inside latitude 40.4 to 41.0 and
longitude -74.3 to -73.7, duration in [60, 18000] s, derived distance in
[0.1, 100] km, derived speed in [1, 100] km/h. -/
theorem claim_C5_clean_record_bounds :
    ∀ (env : JSEnv) (rows : List RawTripData) (bs : ℕ) (b : List InsertTrip)
      (rec : InsertTrip),
      b ∈ (processCSVFile env rows bs).flushes → rec ∈ b → recordOk rec := by
  intro env rows bs b rec hb hr
  have hinv := foldlInvariant (processRowEvent env bs)
    (fun st => (∀ b ∈ st.flushes, ∀ r ∈ b, recordOk r) ∧
      ∀ r ∈ st.batch, recordOk r)
    (fun st row h => recordOk_step env bs st row h) rows initState
    (by simp [initState])
  set stf := rows.foldl (processRowEvent env bs) initState with hstf
  have hfin : ∀ b ∈ (finishRun env stf).flushes, ∀ r ∈ b, recordOk r := by
    unfold finishRun
    split
    · exact hinv.1
    · intro b hb r hr
      simp only [flushBatch] at hb
      rcases List.mem_append.mp hb with hb | hb
      · exact hinv.1 b hb r hr
      · rw [List.mem_singleton.mp hb] at hr
        exact hinv.2 r hr
  exact hfin b hb rec hr

/-- The one-record run with batch size 1 flushes exactly `[[recA]]`. -/
theorem run1_flushes : (processCSVFile env0 [rowA] 1).flushes = [[recA]] := by
  unfold processCSVFile
  rw [List.foldl_cons,
    processRowEvent_accepted env0 1 initState rowA recA (by decide)
      processRow_env0_rowA,
    if_pos (by decide), List.foldl_nil]
  rfl

/-- Witness for C5: the record the test run actually persists is in bounds. -/
theorem claim_C5_clean_record_bounds_witness : recordOk recA :=
  claim_C5_clean_record_bounds env0 [rowA] 1 [recA] recA
    (by rw [run1_flushes]; exact List.mem_singleton_self _)
    (List.mem_singleton_self _)

/-! ## Dedup keys on the raw identifier (claim C10) -/

/-- Counter bookkeeping of an accepted step. -/
theorem processRowEvent_accepted_counts (env : JSEnv) (bs : ℕ) (st : ProcState)
    (row : RawTripData) (c : InsertTrip) (h : row.id ∉ st.seenIds)
    (hp : processRow env row = some c) :
    (processRowEvent env bs st row).stats.validRows = st.stats.validRows + 1 ∧
    (processRowEvent env bs st row).stats.duplicates = st.stats.duplicates ∧
    (processRowEvent env bs st row).seenIds = row.id :: st.seenIds := by
  rw [processRowEvent_accepted env bs st row c h hp]
  split
  · obtain ⟨-, hv, hd, -, hs⟩ := flushBatch_counts env (acceptState st row.id c)
    exact ⟨by rw [hv]; rfl, by rw [hd]; rfl, by rw [hs]; rfl⟩
  · exact ⟨rfl, rfl, rfl⟩

/-- C10: deduplication keys on the raw, untrimmed identifier while the
persisted CleanRecord stores the trimmed identifier — two records whose raw
identifiers differ (for example only by surrounding whitespace) but share a
trimmed identifier are both accepted, neither is counted a duplicate, and the
two CleanRecords carry identical identifiers. -/
theorem claim_C10_trim_dedup :
    ∀ (env : JSEnv) (r1 r2 : RawTripData) (c1 c2 : InsertTrip) (bs : ℕ),
      r1.id ≠ r2.id → jsTrim r1.id = jsTrim r2.id →
      processRow env r1 = some c1 → processRow env r2 = some c2 →
      (processCSVFile env [r1, r2] bs).stats.duplicates = 0 ∧
      (processCSVFile env [r1, r2] bs).stats.validRows = 2 ∧
      c1.id = c2.id := by
  intro env r1 r2 c1 c2 bs hne htrim hp1 hp2
  have hid1 := (processRow_spec env r1 c1 hp1).2
  have hid2 := (processRow_spec env r2 c2 hp2).2
  have h1 := processRowEvent_accepted_counts env bs initState r1 c1
    (by simp [initState]) hp1
  have hnotmem : r2.id ∉ (processRowEvent env bs initState r1).seenIds := by
    rw [h1.2.2]
    intro hm
    rcases List.mem_cons.mp hm with he | hin
    · exact hne he.symm
    · simp [initState] at hin
  have h2 := processRowEvent_accepted_counts env bs
    (processRowEvent env bs initState r1) r2 c2 hnotmem hp2
  unfold processCSVFile
  rw [show [r1, r2].foldl (processRowEvent env bs) initState =
      processRowEvent env bs (processRowEvent env bs initState r1) r2 from rfl]
  obtain ⟨-, hv, hd, -, -⟩ :=
    finishRun_counts env (processRowEvent env bs (processRowEvent env bs initState r1) r2)
  refine ⟨?_, ?_, hid1.trans (htrim.trans hid2.symm)⟩
  · rw [hd, h2.2.1, h1.2.1]
    rfl
  · rw [hv, h2.1, h1.1]
    rfl

/-- Witness for C10: "a1" and " a1 " in one run — no duplicate, both
accepted, identical stored identifiers. -/
theorem claim_C10_trim_dedup_witness :
    (processCSVFile env0 [rowA, rowASpaced] 1000).stats.duplicates = 0 ∧
    (processCSVFile env0 [rowA, rowASpaced] 1000).stats.validRows = 2 ∧
    recA.id = recA.id :=
  claim_C10_trim_dedup env0 rowA rowASpaced recA recA 1000 (by decide) (by decide)
    processRow_env0_rowA processRow_env0_rowASpaced

/-! ## Source failure semantics (claim C6) -/

/-- A run over data events threads the per-row state. -/
theorem processCSVLoop_data_run (env : JSEnv) (bs : ℕ) :
    ∀ (pre : List RawTripData) (st : ProcState) (evs : List SourceEvent),
      processCSVLoop env bs st (pre.map SourceEvent.data ++ evs) =
        processCSVLoop env bs (pre.foldl (processRowEvent env bs) st) evs := by
  intro pre
  induction pre with
  | nil => intro st evs; rfl
  | cons r rs ih =>
    intro st evs
    rw [List.map_cons, List.cons_append]
    show processCSVLoop env bs (processRowEvent env bs st r)
      (rs.map SourceEvent.data ++ evs) = _
    rw [List.foldl_cons]
    exact ih (processRowEvent env bs st r) evs

/-- C6 counterexample: two aborted runs that made different progress (one
processed a row, one did not) produce the SAME rejection value
`Except.error "boom"` — the rejection carries only the error, so the
accumulated IngestionStats are not propagated to the caller, contrary to the
claim. -/
theorem claim_C6_counterexample :
    processCSVLoop env0 1000 initState
      [SourceEvent.data rowA, SourceEvent.sourceFail "boom"] =
      Except.error "boom" ∧
    processCSVLoop env0 1000 initState [SourceEvent.sourceFail "boom"] =
      Except.error "boom" ∧
    (processRowEvent env0 1000 initState rowA).stats.totalRows ≠
      initState.stats.totalRows := by
  refine ⟨rfl, rfl, ?_⟩
  rw [processRowEvent_totalRows]
  simp [initState]

/-- C6 amended: a source-read failure aborts the run and the failure value is
propagated to the caller, but WITHOUT the accumulated stats (the result is
the bare error, independent of how much progress preceded it); a source that
delivers only data rows never produces an error — per-record bad data is
always a normal rejection. -/
theorem claim_C6_error_propagation :
    ∀ (env : JSEnv) (bs : ℕ) (pre : List RawTripData) (e : String)
      (rest : List SourceEvent),
      processCSVLoop env bs initState
        (pre.map SourceEvent.data ++ SourceEvent.sourceFail e :: rest) =
        Except.error e ∧
      processCSVLoop env bs initState (pre.map SourceEvent.data) =
        Except.ok (processCSVFile env pre bs) := by
  intro env bs pre e rest
  constructor
  · rw [processCSVLoop_data_run env bs pre initState]
    rfl
  · have h := processCSVLoop_data_run env bs pre initState []
    rw [List.append_nil] at h
    rw [h]
    rfl

/-! ## Backpressure (claim C7) -/

/-- Definitional unfolding of the snapshot trace on a cons cell. -/
theorem sampleSnapshots_cons (env : JSEnv) (t bs : ℕ) (st : ProcState)
    (row : RawTripData) (rest : List RawTripData) :
    sampleSnapshots env t bs st (row :: rest) =
      if t ≤ st.stats.validRows then []
      else if (processRowEvent env bs st row).flushes.length = st.flushes.length
        then
        (processRowEvent env bs st row).batch.length ::
          sampleSnapshots env t bs (processRowEvent env bs st row) rest
      else
        (((processRowEvent env bs st row).flushes.getLastD []).length +
            (processRowEvent env bs st row).batch.length) ::
          (processRowEvent env bs st row).batch.length ::
          sampleSnapshots env t bs (processRowEvent env bs st row) rest := rfl

/-- Each step either leaves the flush trace alone and keeps the batch below
capacity, or appends exactly one batch of exactly `bs` records and empties
the in-memory batch. -/
theorem processRowEvent_flush_shape (env : JSEnv) (bs : ℕ) (st : ProcState)
    (row : RawTripData) (hbs : 1 ≤ bs) (hlt : st.batch.length < bs) :
    ((processRowEvent env bs st row).batch.length < bs ∧
      (processRowEvent env bs st row).flushes = st.flushes) ∨
    ((processRowEvent env bs st row).batch = [] ∧
      ∃ b, (processRowEvent env bs st row).flushes = st.flushes ++ [b] ∧
        b.length = bs) := by
  by_cases hm : row.id ∈ st.seenIds
  · rw [processRowEvent_seen env bs st row hm]
    exact Or.inl ⟨hlt, rfl⟩
  · cases hp : processRow env row with
    | none =>
      rw [processRowEvent_rejected env bs st row hm hp]
      exact Or.inl ⟨hlt, rfl⟩
    | some c =>
      rw [processRowEvent_accepted env bs st row c hm hp]
      by_cases hfl : bs ≤ st.batch.length + 1
      · rw [if_pos hfl]
        refine Or.inr ⟨rfl, st.batch ++ [c], rfl, ?_⟩
        simp only [List.length_append, List.length_cons, List.length_nil]
        omega
      · rw [if_neg hfl]
        refine Or.inl ⟨?_, rfl⟩
        simp only [acceptState, List.length_append, List.length_cons,
          List.length_nil]
        omega

/-- Every snapshot of the sampled run stays within one batch capacity plus
one in-flight batch. -/
theorem sampleSnapshots_bound (env : JSEnv) (t bs : ℕ) (hbs : 1 ≤ bs) :
    ∀ (rows : List RawTripData) (st : ProcState), st.batch.length < bs →
      ∀ n ∈ sampleSnapshots env t bs st rows, n ≤ bs + bs := by
  intro rows
  induction rows with
  | nil =>
    intro st hlt n hn
    simp [sampleSnapshots] at hn
  | cons r rs ih =>
    intro st hlt n hn
    rw [sampleSnapshots_cons] at hn
    by_cases hstop : t ≤ st.stats.validRows
    · rw [if_pos hstop] at hn
      exact absurd hn (List.not_mem_nil n)
    · rw [if_neg hstop] at hn
      rcases processRowEvent_flush_shape env bs st r hbs hlt with
        ⟨hlt2, hfe⟩ | ⟨hb, b, hfl, hlen⟩
      · rw [if_pos (by rw [hfe])] at hn
        rcases List.mem_cons.mp hn with he | hin
        · subst he
          omega
        · exact ih _ hlt2 n hin
      · have hne : (processRowEvent env bs st r).flushes.length ≠
            st.flushes.length := by
          rw [hfl]
          simp
        rw [if_neg hne] at hn
        have hlast : (processRowEvent env bs st r).flushes.getLastD [] = b := by
          rw [hfl]
          exact List.getLastD_concat _ _ _
        have hb0 : (processRowEvent env bs st r).batch.length = 0 := by
          rw [hb]
          rfl
        rcases List.mem_cons.mp hn with he | hin
        · subst he
          rw [hlast, hlen, hb0]
          omega
        · rcases List.mem_cons.mp hin with he2 | hin2
          · subst he2
            rw [hb0]
            omega
          · exact ih _ (by rw [hb0]; omega) n hin2

/-- C7 counterexample: in a FULL run the batch insert is fire-and-forget
(`db.insert(...).then(...)` with no await and no stream pause), so its
completion can lag arbitrarily.  Under the admissible completion schedule in
which no insert has completed yet, a run with batch size 1 over three valid
rows holds 3 records in memory after the third row — exceeding the claimed
bound of one batch capacity plus one in-flight batch, 1 + 1 = 2. -/
theorem claim_C7_counterexample :
    fullRunBufferedAt env0 1 [rowA, rowB, rowC] (fun _ => 0) 3 = 3 ∧
    1 + 1 < 3 := by
  constructor
  · unfold fullRunBufferedAt runPrefixState
    rw [show List.take 3 [rowA, rowB, rowC] = [rowA, rowB, rowC] from rfl,
      run3_state]
    rfl
  · norm_num

/-- C7 amended: in SAMPLED runs each batch insertion is a suspension point
(the stream is paused and the insert awaited), so the records buffered in
memory — current batch plus any in-flight insert batch — never exceed the
batch capacity plus one in-flight batch; in full runs the insert is not
awaited and this bound can be exceeded. -/
theorem claim_C7_sample_backpressure :
    ∀ (env : JSEnv) (t bs : ℕ) (rows : List RawTripData) (n : ℕ),
      1 ≤ bs → n ∈ sampleSnapshots env t bs initState rows → n ≤ bs + bs :=
  fun env t bs rows n hbs hn =>
    sampleSnapshots_bound env t bs hbs rows initState
      (by simpa [initState] using hbs) n hn

theorem sampleStep1 :
    processRowEvent env0 2 initState rowA = acceptState initState rowA.id recA := by
  rw [processRowEvent_accepted env0 2 initState rowA recA (by decide)
    processRow_env0_rowA, if_neg (by decide)]

theorem sampleStep2 :
    processRowEvent env0 2 (acceptState initState rowA.id recA) rowB =
      flushBatch env0 (acceptState (acceptState initState rowA.id recA)
        rowB.id (recFor "b2")) := by
  rw [processRowEvent_accepted env0 2 (acceptState initState rowA.id recA) rowB
    (recFor "b2") (by decide) processRow_env0_rowB, if_pos (by decide)]

theorem sampleStep3 :
    processRowEvent env0 2 (flushBatch env0 (acceptState
        (acceptState initState rowA.id recA) rowB.id (recFor "b2"))) rowC =
      acceptState (flushBatch env0 (acceptState
        (acceptState initState rowA.id recA) rowB.id (recFor "b2")))
        rowC.id (recFor "c3") := by
  rw [processRowEvent_accepted env0 2 _ rowC (recFor "c3") (by decide)
    processRow_env0_rowC, if_neg (by decide)]

/-- The snapshot trace of the sampled test run: batch of 1, then a flush of 2
records while the batch is empty, then a batch of 1 again. -/
theorem sampleSnapshots3 :
    sampleSnapshots env0 10 2 initState [rowA, rowB, rowC] = [1, 2, 0, 1] := by
  rw [sampleSnapshots_cons, sampleStep1, if_neg (by decide), if_pos (by decide)]
  rw [sampleSnapshots_cons, sampleStep2, if_neg (by decide), if_neg (by decide)]
  rw [sampleSnapshots_cons, sampleStep3, if_neg (by decide), if_pos (by decide)]
  decide

/-- Witness for the amended C7 at a concrete snapshot of a concrete run. -/
theorem claim_C7_sample_backpressure_witness :
    1 ∈ sampleSnapshots env0 10 2 initState [rowA, rowB, rowC] ∧ (1 : ℕ) ≤ 2 + 2 :=
  ⟨by rw [sampleSnapshots3]; decide,
    claim_C7_sample_backpressure env0 10 2 [rowA, rowB, rowC] 1 (by norm_num)
      (by rw [sampleSnapshots3]; decide)⟩

end UrbanMobility
